import Mathlib

/-!
Verification of the tic-tac-toe game engine found in `src/app/page.tsx`.

The engine consists of the pure functions `checkWinner`, `checkDraw`,
`getAvailableMoves` and `getComputerMove`, together with the state
transitions performed by `handleCellClick`, the computer-move effect,
`resetGame` and `resetScore`.  Cells hold `"X"`, `"O"` or `null`; we model a
cell as `Option Mark` (`none` = `null`) and a board as a `List Cell`.
JavaScript array reads `board[i]` (which yield `undefined` out of range,
and `undefined`/`null` are both falsy) are modelled with `List.getD i none`;
a copy-and-assign `[...board]; b[i] = m` is `List.set i (some m)`.
`Math.floor(Math.random() * n)` is modelled by a parameter `rand : Nat → Nat`
applied to the length `n`; a random draw in `[0,1)` corresponds exactly to
the assumption `∀ n, 0 < n → rand n < n` (and `rand 0 = 0` is the JS value,
where indexing then yields `undefined`, i.e. `none`).
-/

namespace TicTacToe

/-- `type CellValue = "X" | "O" | null` — the two marks. -/
inductive Mark
  | X
  | O
deriving DecidableEq

/-- A cell: `"X"`, `"O"` or `null`. -/
abbrev Cell := Option Mark

/-- `type Board = CellValue[]`. -/
abbrev Board := List Cell

/-- `type GameStatus = "playing" | "won" | "draw"`. -/
inductive GameStatus
  | playing
  | won
  | draw
deriving DecidableEq

/-- `interface Score { player; computer; draws }`. -/
structure Score where
  player : Nat
  computer : Nat
  draws : Nat
deriving DecidableEq

/-- The React component state: `board`, `isPlayerTurn`, `gameStatus`,
`winner`, `score`. -/
structure GameState where
  board : Board
  isPlayerTurn : Bool
  gameStatus : GameStatus
  winner : Option String
  score : Score
deriving DecidableEq

/-- The constant `WINNING_COMBINATIONS`: 3 rows, 3 columns, 2 diagonals,
in the declared order. -/
def WINNING_COMBINATIONS : List (Nat × Nat × Nat) :=
  [(0, 1, 2), (3, 4, 5), (6, 7, 8),
   (0, 3, 6), (1, 4, 7), (2, 5, 8),
   (0, 4, 8), (2, 4, 6)]

/-- The loop body of `checkWinner`: scan a list of combinations; for the
first `[a, b, c]` with `board[a] && board[a] === board[b] && board[a] ===
board[c]`, return `board[a]`. -/
def checkWinnerAux (board : Board) : List (Nat × Nat × Nat) → Cell
  | [] => none
  | (a, b, c) :: rest =>
    match board.getD a none with
    | some m =>
      if board.getD b none = some m ∧ board.getD c none = some m then some m
      else checkWinnerAux board rest
    | none => checkWinnerAux board rest

/-- `checkWinner(board)`: scan `WINNING_COMBINATIONS` in order, return the
mark of the first fully-occupied line, `null` if none. -/
def checkWinner (board : Board) : Cell :=
  checkWinnerAux board WINNING_COMBINATIONS

/-- The arrow function `cell => cell !== null` used by `checkDraw`. -/
def cellFilled (cell : Cell) : Bool :=
  decide (cell ≠ none)

/-- `checkDraw(board)`: `board.every(cell => cell !== null)`. -/
def checkDraw (board : Board) : Bool :=
  board.all cellFilled

/-- `getAvailableMoves(board)`:
`board.map((cell, index) => cell === null ? index : -1).filter(i => i !== -1)`.
JavaScript numbers are modelled by `Int` because of the `-1` sentinel. -/
def getAvailableMoves (board : Board) : List Int :=
  (board.enum.map fun p => if p.2 = none then (p.1 : Int) else -1).filter
    fun i => decide (i ≠ -1)

/-- `const testBoard = [...board]; testBoard[move] = m` for an in-range
`move` drawn from `getAvailableMoves`. -/
def setMove (board : Board) (move : Int) (m : Mark) : Board :=
  board.set move.toNat (some m)

/-- `getComputerMove(board)`: win, block, center, random corner, random
fallback — in that order.  `rand` models `Math.floor(Math.random() * n)`
as a function of the length `n`; the result is an `Option Int` because the
final array indexings yield `undefined` (`none`) when out of range (in
particular on a full board, where `availableMoves` is empty). -/
def getComputerMove (rand : Nat → Nat) (board : Board) : Option Int :=
  let availableMoves := getAvailableMoves board
  match availableMoves.find? (fun move =>
      decide (checkWinner (setMove board move Mark.O) = some Mark.O)) with
  | some move => some move
  | none =>
    match availableMoves.find? (fun move =>
        decide (checkWinner (setMove board move Mark.X) = some Mark.X)) with
    | some move => some move
    | none =>
      if availableMoves.contains 4 then
        some 4
      else
        let corners : List Int := [0, 2, 6, 8]
        let availableCorners :=
          corners.filter fun corner => availableMoves.contains corner
        if availableCorners.length > 0 then
          availableCorners[rand availableCorners.length]?
        else
          availableMoves[rand availableMoves.length]?

/-- `handleCellClick(index)`: reject if the cell is occupied, the game is
over, or it is not the player's turn; otherwise place `"X"`, then check
win, then draw, then hand the turn to the computer. -/
def handleCellClick (s : GameState) (index : Nat) : GameState :=
  if s.board.getD index none ≠ none ∨ s.gameStatus ≠ GameStatus.playing ∨
      s.isPlayerTurn = false then s
  else
    let newBoard := s.board.set index (some Mark.X)
    if checkWinner newBoard ≠ none then
      { s with board := newBoard, gameStatus := GameStatus.won,
               winner := some "Player",
               score := { s.score with player := s.score.player + 1 } }
    else if checkDraw newBoard then
      { s with board := newBoard, gameStatus := GameStatus.draw,
               score := { s.score with draws := s.score.draws + 1 } }
    else
      { s with board := newBoard, isPlayerTurn := false }

/-- The computer-move `useEffect` body (minus the pacing timer): when it is
the computer's turn and the game is in progress, place `"O"` at
`getComputerMove(board)`, then check win, then draw, then hand the turn
back.  When `getComputerMove` yields `undefined` (full board), the JS
write `newBoard[undefined] = "O"` stores a non-index property and leaves
all nine cells unchanged, so the board is modelled unchanged. -/
def computerStep (rand : Nat → Nat) (s : GameState) : GameState :=
  if s.isPlayerTurn = false ∧ s.gameStatus = GameStatus.playing then
    let newBoard :=
      match getComputerMove rand s.board with
      | some computerMove => s.board.set computerMove.toNat (some Mark.O)
      | none => s.board
    if checkWinner newBoard ≠ none then
      { s with board := newBoard, gameStatus := GameStatus.won,
               winner := some "Computer",
               score := { s.score with computer := s.score.computer + 1 } }
    else if checkDraw newBoard then
      { s with board := newBoard, gameStatus := GameStatus.draw,
               score := { s.score with draws := s.score.draws + 1 } }
    else
      { s with board := newBoard, isPlayerTurn := true }
  else s

/-- `resetGame()`: empty board, player's turn, playing, no winner; the
score is untouched. -/
def resetGame (s : GameState) : GameState :=
  { s with board := List.replicate 9 none, isPlayerTurn := true,
           gameStatus := GameStatus.playing, winner := none }

/-- `resetScore()`: zero all three tallies; nothing else changes. -/
def resetScore (s : GameState) : GameState :=
  { s with score := { player := 0, computer := 0, draws := 0 } }

/-- The initial board. -/
def emptyBoard : Board := List.replicate 9 none

/-- The initial React state. -/
def state0 : GameState :=
  { board := emptyBoard, isPlayerTurn := true,
    gameStatus := GameStatus.playing, winner := none,
    score := { player := 0, computer := 0, draws := 0 } }

/-- A deterministic instance of the random source: always picks slot 0. -/
def rand0 : Nat → Nat := fun _ => 0

/-- The tail of the `map`/`filter` pipeline of `getAvailableMoves`:
the enumeration starting at offset `k`. -/
def availAux (k : Nat) (l : List Cell) : List Int :=
  ((l.enumFrom k).map fun p => if p.2 = none then (p.1 : Int) else -1).filter
    fun i => decide (i ≠ -1)

/-- The specification predicate: all three cells of the combination `t`
hold mark `m` (in particular they are non-empty). -/
def lineComplete (board : Board) : Nat × Nat × Nat → Mark → Prop
  | (a, b, c), m =>
    board.getD a none = some m ∧ board.getD b none = some m ∧
      board.getD c none = some m

/-- The test of one iteration of the `checkWinner` loop, as a value. -/
def lineWinner (board : Board) : Nat × Nat × Nat → Cell
  | (a, b, c) =>
    match board.getD a none with
    | some m =>
      if board.getD b none = some m ∧ board.getD c none = some m then some m
      else none
    | none => none

/-- The one-ply lookahead used by the win and block steps: hypothetically
placing mark `m` at `move` produces a board that `checkWinner` reports as
won by `m`. -/
def producesWin (board : Board) (m : Mark) (move : Int) : Prop :=
  checkWinner (setMove board move m) = some m

instance producesWinDecidable (board : Board) (m : Mark) (mv : Int) :
    Decidable (producesWin board m mv) :=
  inferInstanceAs (Decidable (checkWinner (setMove board mv m) = some m))

/-- A completely occupied board. -/
def fullBoard : Board :=
  [some Mark.X, some Mark.O, some Mark.X,
   some Mark.O, some Mark.X, some Mark.O,
   some Mark.X, some Mark.O, some Mark.X]

/-- The computer-to-move variant of the initial state. -/
def stateC : GameState := { state0 with isPlayerTurn := false }

/-- A terminal state: the player has completed the top row. -/
def stateWon : GameState :=
  { board := [some Mark.X, some Mark.X, some Mark.X,
      some Mark.O, some Mark.O, none, none, none, none],
    isPlayerTurn := true, gameStatus := GameStatus.won,
    winner := some "Player", score := { player := 1, computer := 0, draws := 0 } }

example : checkWinner [some Mark.X, some Mark.X, some Mark.X,
    none, none, none, none, none, none] = some Mark.X := by decide

example : getAvailableMoves [some Mark.X, none, some Mark.O,
    none, none, none, none, none, none] = [1, 3, 4, 5, 6, 7, 8] := by decide

example : getComputerMove rand0 emptyBoard = some 4 := by decide

example : getComputerMove rand0
    [some Mark.X, some Mark.X, none, none, some Mark.O, none,
     none, none, none] = some 2 := by decide

example : getComputerMove rand0
    [some Mark.O, some Mark.O, none, none, some Mark.X, none,
     none, none, none] = some 2 := by decide

/-! ### Theory of `getAvailableMoves` -/

lemma getAvailableMoves_eq_availAux (board : Board) :
    getAvailableMoves board = availAux 0 board := rfl

lemma availAux_nil (k : Nat) : availAux k [] = [] := rfl

lemma availAux_cons (k : Nat) (c : Cell) (l : List Cell) :
    availAux k (c :: l) =
      (if c = none then [(k : Int)] else []) ++ availAux (k + 1) l := by
  unfold availAux
  rw [List.enumFrom_cons, List.map_cons, List.filter_cons]
  by_cases hc : c = none
  · simp only [hc, if_pos rfl]
    have : ((k : Int) ≠ -1) := by omega
    simp [this]
  · simp [hc]

lemma availAux_mem (l : List Cell) (k : Nat) (i : Int) :
    i ∈ availAux k l ↔
      ∃ n : Nat, n < l.length ∧ i = ((k + n : Nat) : Int) ∧
        l.getD n none = none := by
  induction l generalizing k with
  | nil =>
    simp [availAux_nil]
  | cons c l ih =>
    rw [availAux_cons, List.mem_append, ih]
    constructor
    · rintro (h | ⟨n, hn, hi, hc⟩)
      · by_cases hc : c = none
        · rw [if_pos hc, List.mem_singleton] at h
          refine ⟨0, by simp, by omega, by simp [hc]⟩
        · rw [if_neg hc] at h
          exact absurd h (List.not_mem_nil i)
      · refine ⟨n + 1, by simp only [List.length_cons]; omega, by omega, ?_⟩
        simpa [List.getD_cons_succ] using hc
    · rintro ⟨n, hn, hi, hc⟩
      cases n with
      | zero =>
        have hc0 : c = none := by simpa [List.getD_cons_zero] using hc
        left
        rw [if_pos hc0, List.mem_singleton]
        omega
      | succ n =>
        right
        refine ⟨n, by simp only [List.length_cons] at hn; omega, by omega, ?_⟩
        simpa [List.getD_cons_succ] using hc

lemma availAux_ge (l : List Cell) (k : Nat) (i : Int) (h : i ∈ availAux k l) :
    (k : Int) ≤ i := by
  obtain ⟨n, _, hi, _⟩ := (availAux_mem l k i).mp h
  omega

lemma availAux_sorted (l : List Cell) (k : Nat) :
    (availAux k l).Pairwise (· < ·) := by
  induction l generalizing k with
  | nil => simp [availAux_nil]
  | cons c l ih =>
    rw [availAux_cons]
    rw [List.pairwise_append]
    refine ⟨?_, ih (k + 1), ?_⟩
    · by_cases hc : c = none <;> simp [hc]
    · intro a ha b hb
      have hb1 : ((k + 1 : Nat) : Int) ≤ b := availAux_ge l (k + 1) b hb
      have ha1 : a = (k : Int) := by
        by_cases hc : c = none
        · simpa [hc] using ha
        · simp [hc] at ha
      omega

lemma cellFilled_false_iff (c : Cell) : cellFilled c = false ↔ c = none := by
  simp [cellFilled]

lemma cellFilled_true_iff (c : Cell) : cellFilled c = true ↔ c ≠ none := by
  simp [cellFilled]

lemma availAux_length (l : List Cell) (k : Nat) :
    (availAux k l).length + (l.filter cellFilled).length = l.length := by
  induction l generalizing k with
  | nil => simp [availAux_nil]
  | cons c l ih =>
    have hih := ih (k + 1)
    by_cases hc : c = none
    · have hav : availAux k (c :: l) = (k : Int) :: availAux (k + 1) l := by
        rw [availAux_cons, if_pos hc, List.singleton_append]
      have hfil : List.filter cellFilled (c :: l) = List.filter cellFilled l :=
        List.filter_cons_of_neg (by simp [cellFilled, hc])
      rw [hav, hfil]
      simp only [List.length_cons]
      omega
    · have hav : availAux k (c :: l) = availAux (k + 1) l := by
        rw [availAux_cons, if_neg hc, List.nil_append]
      have hfil : List.filter cellFilled (c :: l) =
          c :: List.filter cellFilled l :=
        List.filter_cons_of_pos (by simp [cellFilled, hc])
      rw [hav, hfil]
      simp only [List.length_cons]
      omega

lemma availAux_eq_nil_iff (l : List Cell) (k : Nat) :
    availAux k l = [] ↔ checkDraw l = true := by
  induction l generalizing k with
  | nil => simp [availAux_nil, checkDraw]
  | cons c l ih =>
    rw [availAux_cons]
    by_cases hc : c = none
    · rw [if_pos hc]
      simp [checkDraw, List.all_cons, cellFilled, hc]
    · rw [if_neg hc, List.nil_append, ih (k + 1)]
      simp [checkDraw, List.all_cons, cellFilled, hc]

lemma mem_getAvailableMoves (board : Board) (i : Int) :
    i ∈ getAvailableMoves board ↔
      ∃ n : Nat, n < board.length ∧ i = (n : Int) ∧
        board.getD n none = none := by
  rw [getAvailableMoves_eq_availAux, availAux_mem]
  simp

lemma getAvailableMoves_sorted (board : Board) :
    (getAvailableMoves board).Pairwise (· < ·) := by
  rw [getAvailableMoves_eq_availAux]
  exact availAux_sorted board 0

lemma getAvailableMoves_nonneg (board : Board) (i : Int)
    (h : i ∈ getAvailableMoves board) : 0 ≤ i := by
  rw [getAvailableMoves_eq_availAux] at h
  simpa using availAux_ge board 0 i h

/-- C7: `getAvailableMoves` returns exactly the indices `0`–`8` of the
`null` cells, in strictly ascending order with no duplicates; its length
plus the number of non-null cells is `9`; and it is empty exactly when
`checkDraw` holds. -/
theorem getAvailableMoves_spec (board : Board) (hlen : board.length = 9) :
    (∀ i : Int, i ∈ getAvailableMoves board ↔
        ∃ n : Nat, n < 9 ∧ i = (n : Int) ∧ board.getD n none = none)
    ∧ (getAvailableMoves board).Pairwise (· < ·)
    ∧ (getAvailableMoves board).Nodup
    ∧ (getAvailableMoves board).length + (board.filter cellFilled).length = 9
    ∧ (getAvailableMoves board = [] ↔ checkDraw board = true) := by
  refine ⟨?_, getAvailableMoves_sorted board, ?_, ?_, ?_⟩
  · intro i
    rw [mem_getAvailableMoves, hlen]
  · exact (getAvailableMoves_sorted board).imp fun h => ne_of_lt h
  · have h := availAux_length board 0
    rw [getAvailableMoves_eq_availAux]
    omega
  · rw [getAvailableMoves_eq_availAux, availAux_eq_nil_iff]

/-- Witness for `getAvailableMoves_spec` at the empty board. -/
theorem getAvailableMoves_spec_witness :
    emptyBoard.length = 9 ∧
      (getAvailableMoves emptyBoard).Pairwise (· < ·) ∧
      (getAvailableMoves emptyBoard).length +
        (emptyBoard.filter cellFilled).length = 9 :=
  ⟨by decide, (getAvailableMoves_spec emptyBoard (by decide)).2.1,
    (getAvailableMoves_spec emptyBoard (by decide)).2.2.2.1⟩

/-! ### Theory of `checkWinner` -/

lemma checkWinnerAux_cons (board : Board) (t : Nat × Nat × Nat)
    (l : List (Nat × Nat × Nat)) :
    checkWinnerAux board (t :: l) =
      match lineWinner board t with
      | some m => some m
      | none => checkWinnerAux board l := by
  obtain ⟨a, b, c⟩ := t
  simp only [checkWinnerAux, lineWinner]
  cases board.getD a none with
  | none => rfl
  | some m =>
    dsimp only
    by_cases h : board.getD b none = some m ∧ board.getD c none = some m
    · rw [if_pos h, if_pos h]
    · rw [if_neg h, if_neg h]

lemma lineWinner_some_iff (board : Board) (t : Nat × Nat × Nat) (m : Mark) :
    lineWinner board t = some m ↔ lineComplete board t m := by
  obtain ⟨a, b, c⟩ := t
  simp only [lineWinner, lineComplete]
  cases h : board.getD a none with
  | none => simp
  | some mA =>
    dsimp only
    by_cases hbc : board.getD b none = some mA ∧ board.getD c none = some mA
    · rw [if_pos hbc]
      constructor
      · intro h1
        have hm : mA = m := Option.some.inj h1
        subst hm
        exact ⟨rfl, hbc.1, hbc.2⟩
      · intro h1
        exact h1.1
    · rw [if_neg hbc]
      constructor
      · intro h1
        exact absurd h1 (by simp)
      · intro h1
        have hm : mA = m := Option.some.inj h1.1
        subst hm
        exact absurd ⟨h1.2.1, h1.2.2⟩ hbc

lemma lineWinner_none_iff (board : Board) (t : Nat × Nat × Nat) :
    lineWinner board t = none ↔ ∀ m : Mark, ¬ lineComplete board t m := by
  constructor
  · intro h m hm
    rw [← lineWinner_some_iff] at hm
    rw [h] at hm
    exact Option.noConfusion hm
  · intro h
    cases hw : lineWinner board t with
    | none => rfl
    | some m => exact absurd ((lineWinner_some_iff board t m).mp hw) (h m)

lemma checkWinnerAux_eq_some_iff (board : Board)
    (l : List (Nat × Nat × Nat)) (m : Mark) :
    checkWinnerAux board l = some m ↔
      ∃ i : Nat, i < l.length ∧ lineComplete board (l.getD i (0, 0, 0)) m ∧
        ∀ j : Nat, j < i → ∀ mJ : Mark,
          ¬ lineComplete board (l.getD j (0, 0, 0)) mJ := by
  induction l with
  | nil => simp [checkWinnerAux]
  | cons t l ih =>
    rw [checkWinnerAux_cons]
    cases hw : lineWinner board t with
    | some mH =>
      constructor
      · intro h1
        have hm : mH = m := Option.some.inj h1
        subst hm
        refine ⟨0, by simp, by simpa using (lineWinner_some_iff board t mH).mp hw, ?_⟩
        intro j hj
        exact absurd hj (Nat.not_lt_zero j)
      · rintro ⟨i, hi, hcomp, hmin⟩
        cases i with
        | zero =>
          have h1 := (lineWinner_some_iff board t m).mpr (by simpa using hcomp)
          rw [hw] at h1
          exact h1
        | succ i =>
          exfalso
          exact hmin 0 (Nat.succ_pos i) mH
            (by simpa using (lineWinner_some_iff board t mH).mp hw)
    | none =>
      rw [ih]
      constructor
      · rintro ⟨i, hi, hcomp, hmin⟩
        refine ⟨i + 1, by simp only [List.length_cons]; omega,
          by simpa using hcomp, ?_⟩
        intro j hj mJ
        cases j with
        | zero =>
          simpa using (lineWinner_none_iff board t).mp hw mJ
        | succ j =>
          simpa using hmin j (by omega) mJ
      · rintro ⟨i, hi, hcomp, hmin⟩
        cases i with
        | zero =>
          exfalso
          exact (lineWinner_none_iff board t).mp hw m (by simpa using hcomp)
        | succ i =>
          refine ⟨i, by simp only [List.length_cons] at hi; omega,
            by simpa using hcomp, ?_⟩
          intro j hj mJ
          simpa using hmin (j + 1) (by omega) mJ

lemma checkWinnerAux_eq_none_iff (board : Board) (l : List (Nat × Nat × Nat)) :
    checkWinnerAux board l = none ↔
      ∀ t ∈ l, ∀ m : Mark, ¬ lineComplete board t m := by
  induction l with
  | nil => simp [checkWinnerAux]
  | cons t l ih =>
    rw [checkWinnerAux_cons]
    cases hw : lineWinner board t with
    | some mH =>
      constructor
      · intro h1
        exact Option.noConfusion h1
      · intro h
        exact absurd ((lineWinner_some_iff board t mH).mp hw)
          (h t (List.mem_cons_self t l) mH)
    | none =>
      rw [ih]
      constructor
      · intro h tM htM mJ
        rcases List.mem_cons.mp htM with h1 | h1
        · subst h1
          exact (lineWinner_none_iff board tM).mp hw mJ
        · exact h tM h1 mJ
      · intro h tM htM mJ
        exact h tM (List.mem_cons_of_mem t htM) mJ

/-- C2: `checkWinner` returns `some m` exactly when some line of
`WINNING_COMBINATIONS` is completely occupied by `m` and every line
earlier in the declared order is incomplete (so the first complete line
wins); it returns `none` exactly when no line is complete. -/
theorem checkWinner_spec (board : Board) :
    (∀ m : Mark, checkWinner board = some m ↔
        ∃ i : Nat, i < WINNING_COMBINATIONS.length ∧
          lineComplete board (WINNING_COMBINATIONS.getD i (0, 0, 0)) m ∧
          ∀ j : Nat, j < i → ∀ mJ : Mark,
            ¬ lineComplete board (WINNING_COMBINATIONS.getD j (0, 0, 0)) mJ)
    ∧ (checkWinner board = none ↔
        ∀ t ∈ WINNING_COMBINATIONS, ∀ m : Mark, ¬ lineComplete board t m) :=
  ⟨fun m => checkWinnerAux_eq_some_iff board WINNING_COMBINATIONS m,
    checkWinnerAux_eq_none_iff board WINNING_COMBINATIONS⟩

/-! ### Theory of `getComputerMove` -/

lemma find?_least {p : Int → Bool} {l : List Int} {x : Int}
    (hs : l.Pairwise (· < ·)) (h : l.find? p = some x) :
    ∀ y ∈ l, p y = true → x ≤ y := by
  induction l with
  | nil => exact absurd h (by simp)
  | cons a l ih =>
    rcases List.pairwise_cons.mp hs with ⟨ha, hl⟩
    by_cases hpa : p a = true
    · rw [List.find?_cons_of_pos l hpa] at h
      have hx : x = a := (Option.some.inj h).symm
      subst hx
      intro y hy hpy
      rcases List.mem_cons.mp hy with h1 | h1
      · exact le_of_eq h1.symm
      · exact le_of_lt (ha y h1)
    · rw [List.find?_cons_of_neg l hpa] at h
      intro y hy hpy
      rcases List.mem_cons.mp hy with h1 | h1
      · subst h1
        exact absurd hpy hpa
      · exact ih hl h y h1 hpy

lemma find?_isSome_of_mem (p : Int → Bool) {l : List Int} {x : Int}
    (hx : x ∈ l) (hpx : p x = true) : ∃ y, l.find? p = some y := by
  cases h : l.find? p with
  | some y => exact ⟨y, rfl⟩
  | none => exact absurd hpx (List.find?_eq_none.mp h x hx)

lemma contains_true_iff (l : List Int) (a : Int) :
    l.contains a = true ↔ a ∈ l := by
  simp [List.contains, List.elem_eq_mem]

lemma contains_false_iff (l : List Int) (a : Int) :
    l.contains a = false ↔ a ∉ l := by
  simp [List.contains, List.elem_eq_mem]

lemma findO_eq_none (board : Board)
    (h : ∀ mv ∈ getAvailableMoves board, ¬ producesWin board Mark.O mv) :
    (getAvailableMoves board).find? (fun move =>
      decide (checkWinner (setMove board move Mark.O) = some Mark.O)) = none := by
  rw [List.find?_eq_none]
  intro x hx hpx
  simp only [decide_eq_true_eq] at hpx
  exact h x hx hpx

lemma findX_eq_none (board : Board)
    (h : ∀ mv ∈ getAvailableMoves board, ¬ producesWin board Mark.X mv) :
    (getAvailableMoves board).find? (fun move =>
      decide (checkWinner (setMove board move Mark.X) = some Mark.X)) = none := by
  rw [List.find?_eq_none]
  intro x hx hpx
  simp only [decide_eq_true_eq] at hpx
  exact h x hx hpx

lemma getComputerMove_of_findO (rand : Nat → Nat) (board : Board) (mv : Int)
    (h : (getAvailableMoves board).find? (fun move =>
      decide (checkWinner (setMove board move Mark.O) = some Mark.O)) = some mv) :
    getComputerMove rand board = some mv := by
  simp only [getComputerMove]
  rw [h]

lemma getComputerMove_of_findX (rand : Nat → Nat) (board : Board) (mv : Int)
    (hO : (getAvailableMoves board).find? (fun move =>
      decide (checkWinner (setMove board move Mark.O) = some Mark.O)) = none)
    (hX : (getAvailableMoves board).find? (fun move =>
      decide (checkWinner (setMove board move Mark.X) = some Mark.X)) = some mv) :
    getComputerMove rand board = some mv := by
  simp only [getComputerMove]
  rw [hO, hX]

lemma getComputerMove_center (rand : Nat → Nat) (board : Board)
    (hO : (getAvailableMoves board).find? (fun move =>
      decide (checkWinner (setMove board move Mark.O) = some Mark.O)) = none)
    (hX : (getAvailableMoves board).find? (fun move =>
      decide (checkWinner (setMove board move Mark.X) = some Mark.X)) = none)
    (h4 : (getAvailableMoves board).contains 4 = true) :
    getComputerMove rand board = some 4 := by
  simp only [getComputerMove]
  rw [hO, hX, h4, if_pos rfl]

lemma getComputerMove_corner (rand : Nat → Nat) (board : Board)
    (hrand : ∀ n, 0 < n → rand n < n)
    (hO : (getAvailableMoves board).find? (fun move =>
      decide (checkWinner (setMove board move Mark.O) = some Mark.O)) = none)
    (hX : (getAvailableMoves board).find? (fun move =>
      decide (checkWinner (setMove board move Mark.X) = some Mark.X)) = none)
    (h4 : (getAvailableMoves board).contains 4 = false)
    (hc : ([0, 2, 6, 8] : List Int).filter
      (fun corner => (getAvailableMoves board).contains corner) ≠ []) :
    ∃ mv, getComputerMove rand board = some mv ∧
      mv ∈ ([0, 2, 6, 8] : List Int).filter
        (fun corner => (getAvailableMoves board).contains corner) := by
  simp only [getComputerMove]
  rw [hO, hX, h4, if_neg Bool.false_ne_true]
  have hlen : 0 < (([0, 2, 6, 8] : List Int).filter
      (fun corner => (getAvailableMoves board).contains corner)).length :=
    List.length_pos.mpr hc
  rw [if_pos hlen]
  have hidx := hrand _ hlen
  exact ⟨_, List.getElem?_eq_getElem hidx, List.getElem_mem hidx⟩

lemma getComputerMove_fallback (rand : Nat → Nat) (board : Board)
    (hrand : ∀ n, 0 < n → rand n < n)
    (hO : (getAvailableMoves board).find? (fun move =>
      decide (checkWinner (setMove board move Mark.O) = some Mark.O)) = none)
    (hX : (getAvailableMoves board).find? (fun move =>
      decide (checkWinner (setMove board move Mark.X) = some Mark.X)) = none)
    (h4 : (getAvailableMoves board).contains 4 = false)
    (hc : ([0, 2, 6, 8] : List Int).filter
      (fun corner => (getAvailableMoves board).contains corner) = [])
    (hne : getAvailableMoves board ≠ []) :
    ∃ mv, getComputerMove rand board = some mv ∧
      mv ∈ getAvailableMoves board := by
  simp only [getComputerMove]
  rw [hO, hX, h4, if_neg Bool.false_ne_true, hc]
  rw [if_neg (by simp)]
  have hlen : 0 < (getAvailableMoves board).length := List.length_pos.mpr hne
  have hidx := hrand _ hlen
  exact ⟨_, List.getElem?_eq_getElem hidx, List.getElem_mem hidx⟩

lemma getAvailableMoves_ne_nil (board : Board) (hlen : board.length = 9)
    (hemp : ∃ i, i < 9 ∧ board.getD i none = none) :
    getAvailableMoves board ≠ [] := by
  obtain ⟨i, hi, hci⟩ := hemp
  have hm : (i : Int) ∈ getAvailableMoves board :=
    (mem_getAvailableMoves board (i : Int)).mpr ⟨i, by omega, rfl, hci⟩
  exact List.ne_nil_of_mem hm

/-- C1: on any 9-cell board with at least one empty cell, `getComputerMove`
follows the fixed cascade: the least available move that produces an `"O"`
win; failing that the least available move whose hypothetical `"X"` would
produce an `"X"` win; failing that the center `4`; failing that one of the
empty corners; failing that one of the remaining available moves.  `rand`
models `Math.floor(Math.random() * n)`, so any draw in `[0,1)` satisfies
the `hrand` bound. -/
theorem getComputerMove_cascade (rand : Nat → Nat) (board : Board)
    (hrand : ∀ n, 0 < n → rand n < n)
    (hlen : board.length = 9)
    (hemp : ∃ i, i < 9 ∧ board.getD i none = none) :
    ((∃ mv ∈ getAvailableMoves board, producesWin board Mark.O mv) →
      ∃ mv, getComputerMove rand board = some mv ∧
        mv ∈ getAvailableMoves board ∧ producesWin board Mark.O mv ∧
        ∀ mv2 ∈ getAvailableMoves board, producesWin board Mark.O mv2 → mv ≤ mv2)
    ∧ ((∀ mv ∈ getAvailableMoves board, ¬ producesWin board Mark.O mv) →
      (∃ mv ∈ getAvailableMoves board, producesWin board Mark.X mv) →
      ∃ mv, getComputerMove rand board = some mv ∧
        mv ∈ getAvailableMoves board ∧ producesWin board Mark.X mv ∧
        ∀ mv2 ∈ getAvailableMoves board, producesWin board Mark.X mv2 → mv ≤ mv2)
    ∧ ((∀ mv ∈ getAvailableMoves board, ¬ producesWin board Mark.O mv) →
      (∀ mv ∈ getAvailableMoves board, ¬ producesWin board Mark.X mv) →
      (4 : Int) ∈ getAvailableMoves board →
      getComputerMove rand board = some 4)
    ∧ ((∀ mv ∈ getAvailableMoves board, ¬ producesWin board Mark.O mv) →
      (∀ mv ∈ getAvailableMoves board, ¬ producesWin board Mark.X mv) →
      (4 : Int) ∉ getAvailableMoves board →
      (∃ c ∈ ([0, 2, 6, 8] : List Int), c ∈ getAvailableMoves board) →
      ∃ mv, getComputerMove rand board = some mv ∧
        mv ∈ getAvailableMoves board ∧ mv ∈ ([0, 2, 6, 8] : List Int))
    ∧ ((∀ mv ∈ getAvailableMoves board, ¬ producesWin board Mark.O mv) →
      (∀ mv ∈ getAvailableMoves board, ¬ producesWin board Mark.X mv) →
      (4 : Int) ∉ getAvailableMoves board →
      (∀ c ∈ ([0, 2, 6, 8] : List Int), c ∉ getAvailableMoves board) →
      ∃ mv, getComputerMove rand board = some mv ∧
        mv ∈ getAvailableMoves board) := by
  refine ⟨?_, ?_, ?_, ?_, ?_⟩
  · rintro ⟨m0, hm0, hp0⟩
    have hpm : (fun move =>
        decide (checkWinner (setMove board move Mark.O) = some Mark.O)) m0 = true := by
      simp only [decide_eq_true_eq]
      exact hp0
    obtain ⟨mv, hfind⟩ := find?_isSome_of_mem (fun move =>
      decide (checkWinner (setMove board move Mark.O) = some Mark.O)) hm0 hpm
    refine ⟨mv, getComputerMove_of_findO rand board mv hfind,
      List.mem_of_find?_eq_some hfind, ?_, ?_⟩
    · have h1 := List.find?_some hfind
      simp only [decide_eq_true_eq] at h1
      exact h1
    · intro mv2 hmv2 hp2
      exact find?_least (getAvailableMoves_sorted board) hfind mv2 hmv2
        (by simp only [decide_eq_true_eq]; exact hp2)
  · intro hO
    rintro ⟨m0, hm0, hp0⟩
    have hfO := findO_eq_none board hO
    have hpm : (fun move =>
        decide (checkWinner (setMove board move Mark.X) = some Mark.X)) m0 = true := by
      simp only [decide_eq_true_eq]
      exact hp0
    obtain ⟨mv, hfind⟩ := find?_isSome_of_mem (fun move =>
      decide (checkWinner (setMove board move Mark.X) = some Mark.X)) hm0 hpm
    refine ⟨mv, getComputerMove_of_findX rand board mv hfO hfind,
      List.mem_of_find?_eq_some hfind, ?_, ?_⟩
    · have h1 := List.find?_some hfind
      simp only [decide_eq_true_eq] at h1
      exact h1
    · intro mv2 hmv2 hp2
      exact find?_least (getAvailableMoves_sorted board) hfind mv2 hmv2
        (by simp only [decide_eq_true_eq]; exact hp2)
  · intro hO hX h4
    exact getComputerMove_center rand board (findO_eq_none board hO)
      (findX_eq_none board hX) ((contains_true_iff _ _).mpr h4)
  · intro hO hX h4 hcor
    obtain ⟨c, hcmem, hcav⟩ := hcor
    have hcfil : c ∈ ([0, 2, 6, 8] : List Int).filter
        (fun corner => (getAvailableMoves board).contains corner) := by
      rw [List.mem_filter]
      exact ⟨hcmem, (contains_true_iff _ _).mpr hcav⟩
    obtain ⟨mv, heq, hmv⟩ := getComputerMove_corner rand board hrand
      (findO_eq_none board hO) (findX_eq_none board hX)
      ((contains_false_iff _ _).mpr h4) (List.ne_nil_of_mem hcfil)
    rw [List.mem_filter] at hmv
    exact ⟨mv, heq, (contains_true_iff _ _).mp hmv.2, hmv.1⟩
  · intro hO hX h4 hcor
    have hcfil : ([0, 2, 6, 8] : List Int).filter
        (fun corner => (getAvailableMoves board).contains corner) = [] := by
      rw [List.filter_eq_nil_iff]
      intro a ha
      simp only [Bool.not_eq_true]
      show (getAvailableMoves board).contains a = false
      exact (contains_false_iff _ _).mpr (hcor a ha)
    exact getComputerMove_fallback rand board hrand (findO_eq_none board hO)
      (findX_eq_none board hX) ((contains_false_iff _ _).mpr h4) hcfil
      (getAvailableMoves_ne_nil board hlen hemp)

/-- Witness for `getComputerMove_cascade`: on the empty board no win or
block exists, so the cascade yields the center. -/
theorem getComputerMove_cascade_witness :
    (∀ n, 0 < n → rand0 n < n) ∧ emptyBoard.length = 9 ∧
      (∃ i, i < 9 ∧ emptyBoard.getD i none = none) ∧
      getComputerMove rand0 emptyBoard = some 4 :=
  ⟨fun _ h => h, by decide, ⟨0, by omega, by decide⟩,
    (getComputerMove_cascade rand0 emptyBoard (fun _ h => h) (by decide)
      ⟨0, by omega, by decide⟩).2.2.1 (by decide) (by decide) (by decide)⟩

/-- C10: whatever value the random source yields, the move returned by
`getComputerMove` on a board with an empty cell is an available move: it
is some index `n < 9` whose cell is `null`. -/
theorem getComputerMove_safe (rand : Nat → Nat) (board : Board)
    (hrand : ∀ n, 0 < n → rand n < n)
    (hlen : board.length = 9)
    (hemp : ∃ i, i < 9 ∧ board.getD i none = none) :
    ∃ mv, getComputerMove rand board = some mv ∧
      mv ∈ getAvailableMoves board ∧
      ∃ n : Nat, mv = (n : Int) ∧ n < 9 ∧ board.getD n none = none := by
  have hmem : ∀ mv, mv ∈ getAvailableMoves board →
      ∃ n : Nat, mv = (n : Int) ∧ n < 9 ∧ board.getD n none = none := by
    intro mv hmv
    obtain ⟨n, hn, hi, hc⟩ := (mem_getAvailableMoves board mv).mp hmv
    exact ⟨n, hi, by omega, hc⟩
  by_cases hO : ∃ mv ∈ getAvailableMoves board, producesWin board Mark.O mv
  · obtain ⟨m0, hm0, hp0⟩ := hO
    have hpm : (fun move =>
        decide (checkWinner (setMove board move Mark.O) = some Mark.O)) m0 = true := by
      simp only [decide_eq_true_eq]
      exact hp0
    obtain ⟨mv, hfind⟩ := find?_isSome_of_mem (fun move =>
      decide (checkWinner (setMove board move Mark.O) = some Mark.O)) hm0 hpm
    have hmemv := List.mem_of_find?_eq_some hfind
    exact ⟨mv, getComputerMove_of_findO rand board mv hfind, hmemv, hmem mv hmemv⟩
  · push_neg at hO
    have hfO := findO_eq_none board hO
    by_cases hX : ∃ mv ∈ getAvailableMoves board, producesWin board Mark.X mv
    · obtain ⟨m0, hm0, hp0⟩ := hX
      have hpm : (fun move =>
          decide (checkWinner (setMove board move Mark.X) = some Mark.X)) m0 = true := by
        simp only [decide_eq_true_eq]
        exact hp0
      obtain ⟨mv, hfind⟩ := find?_isSome_of_mem (fun move =>
        decide (checkWinner (setMove board move Mark.X) = some Mark.X)) hm0 hpm
      have hmemv := List.mem_of_find?_eq_some hfind
      exact ⟨mv, getComputerMove_of_findX rand board mv hfO hfind, hmemv,
        hmem mv hmemv⟩
    · push_neg at hX
      have hfX := findX_eq_none board hX
      by_cases h4 : (4 : Int) ∈ getAvailableMoves board
      · exact ⟨4, getComputerMove_center rand board hfO hfX
          ((contains_true_iff _ _).mpr h4), h4, hmem 4 h4⟩
      · by_cases hcor : ∃ c ∈ ([0, 2, 6, 8] : List Int),
            c ∈ getAvailableMoves board
        · obtain ⟨c, hcmem, hcav⟩ := hcor
          have hcfil : c ∈ ([0, 2, 6, 8] : List Int).filter
              (fun corner => (getAvailableMoves board).contains corner) := by
            rw [List.mem_filter]
            exact ⟨hcmem, (contains_true_iff _ _).mpr hcav⟩
          obtain ⟨mv, heq, hmv⟩ := getComputerMove_corner rand board hrand hfO hfX
            ((contains_false_iff _ _).mpr h4) (List.ne_nil_of_mem hcfil)
          rw [List.mem_filter] at hmv
          have hmemv := (contains_true_iff _ _).mp hmv.2
          exact ⟨mv, heq, hmemv, hmem mv hmemv⟩
        · push_neg at hcor
          have hcfil : ([0, 2, 6, 8] : List Int).filter
              (fun corner => (getAvailableMoves board).contains corner) = [] := by
            rw [List.filter_eq_nil_iff]
            intro a ha
            simp only [Bool.not_eq_true]
            show (getAvailableMoves board).contains a = false
            exact (contains_false_iff _ _).mpr (hcor a ha)
          obtain ⟨mv, heq, hmemv⟩ := getComputerMove_fallback rand board hrand
            hfO hfX ((contains_false_iff _ _).mpr h4) hcfil
            (getAvailableMoves_ne_nil board hlen hemp)
          exact ⟨mv, heq, hmemv, hmem mv hmemv⟩

/-- Witness for `getComputerMove_safe` at a board where the player
threatens a win: the returned move `2` is available. -/
theorem getComputerMove_safe_witness :
    (∀ n, 0 < n → rand0 n < n) ∧
      ([some Mark.X, some Mark.X, none, none, some Mark.O, none,
        none, none, none] : Board).length = 9 ∧
      (∃ i, i < 9 ∧ ([some Mark.X, some Mark.X, none, none, some Mark.O, none,
        none, none, none] : Board).getD i none = none) ∧
      ∃ mv, getComputerMove rand0
          [some Mark.X, some Mark.X, none, none, some Mark.O, none,
            none, none, none] = some mv ∧
        mv ∈ getAvailableMoves
          [some Mark.X, some Mark.X, none, none, some Mark.O, none,
            none, none, none] ∧
        ∃ n : Nat, mv = (n : Int) ∧ n < 9 ∧
          ([some Mark.X, some Mark.X, none, none, some Mark.O, none,
            none, none, none] : Board).getD n none = none :=
  ⟨fun _ h => h, by decide, ⟨2, by omega, by decide⟩,
    getComputerMove_safe rand0
      [some Mark.X, some Mark.X, none, none, some Mark.O, none,
        none, none, none]
      (fun _ h => h) (by decide) ⟨2, by omega, by decide⟩⟩

/-! ### Behaviour on a board with no available moves -/

/-- Counterexample for C3: invoked on a full board, `getComputerMove` does
not fail with an `InvalidState` error — the code has no error path at all.
It falls through every step and evaluates
`availableMoves[Math.floor(Math.random() * 0)]` on the empty list, which
is the JS `undefined` (`none` in the model).  The contract violation is
silent, not loud. -/
theorem getComputerMove_full_board_silent :
    getComputerMove rand0 fullBoard = none := by decide

/-- C3 amended: on any board with no available moves, `getComputerMove`
returns `undefined` (`none`): no fabricated in-range index, but also no
error is raised — the behaviour is merely undefined. -/
theorem getComputerMove_no_moves (rand : Nat → Nat) (board : Board)
    (h : getAvailableMoves board = []) :
    getComputerMove rand board = none := by
  simp [getComputerMove, h]

/-- Witness for `getComputerMove_no_moves` at the full board. -/
theorem getComputerMove_no_moves_witness :
    getAvailableMoves fullBoard = [] ∧ getComputerMove rand0 fullBoard = none :=
  ⟨by decide, getComputerMove_no_moves rand0 fullBoard (by decide)⟩

/-! ### Theory of the state transitions -/

lemma handleCellClick_accepted_guard (s : GameState) (index : Nat)
    (h1 : s.board.getD index none = none)
    (h2 : s.gameStatus = GameStatus.playing) (h3 : s.isPlayerTurn = true) :
    ¬(s.board.getD index none ≠ none ∨ s.gameStatus ≠ GameStatus.playing ∨
      s.isPlayerTurn = false) := by
  rintro (h | h | h)
  · exact h h1
  · exact h h2
  · rw [h3] at h
    exact absurd h (by decide)

lemma handleCellClick_won (s : GameState) (index : Nat)
    (h1 : s.board.getD index none = none)
    (h2 : s.gameStatus = GameStatus.playing) (h3 : s.isPlayerTurn = true)
    (hw : checkWinner (s.board.set index (some Mark.X)) ≠ none) :
    handleCellClick s index =
      { s with board := s.board.set index (some Mark.X),
               gameStatus := GameStatus.won, winner := some "Player",
               score := { s.score with player := s.score.player + 1 } } := by
  simp only [handleCellClick]
  rw [if_neg (handleCellClick_accepted_guard s index h1 h2 h3), if_pos hw]

lemma handleCellClick_draw (s : GameState) (index : Nat)
    (h1 : s.board.getD index none = none)
    (h2 : s.gameStatus = GameStatus.playing) (h3 : s.isPlayerTurn = true)
    (hw : checkWinner (s.board.set index (some Mark.X)) = none)
    (hd : checkDraw (s.board.set index (some Mark.X)) = true) :
    handleCellClick s index =
      { s with board := s.board.set index (some Mark.X),
               gameStatus := GameStatus.draw,
               score := { s.score with draws := s.score.draws + 1 } } := by
  simp only [handleCellClick]
  rw [if_neg (handleCellClick_accepted_guard s index h1 h2 h3),
    if_neg (not_not_intro hw), if_pos hd]

lemma handleCellClick_continue (s : GameState) (index : Nat)
    (h1 : s.board.getD index none = none)
    (h2 : s.gameStatus = GameStatus.playing) (h3 : s.isPlayerTurn = true)
    (hw : checkWinner (s.board.set index (some Mark.X)) = none)
    (hd : checkDraw (s.board.set index (some Mark.X)) = false) :
    handleCellClick s index =
      { s with board := s.board.set index (some Mark.X),
               isPlayerTurn := false } := by
  simp only [handleCellClick]
  rw [if_neg (handleCellClick_accepted_guard s index h1 h2 h3),
    if_neg (not_not_intro hw), if_neg (by simp [hd])]

lemma computerStep_won (rand : Nat → Nat) (t : GameState) (mv : Int)
    (h4 : t.isPlayerTurn = false) (h5 : t.gameStatus = GameStatus.playing)
    (h6 : getComputerMove rand t.board = some mv)
    (hw : checkWinner (t.board.set mv.toNat (some Mark.O)) ≠ none) :
    computerStep rand t =
      { t with board := t.board.set mv.toNat (some Mark.O),
               gameStatus := GameStatus.won, winner := some "Computer",
               score := { t.score with computer := t.score.computer + 1 } } := by
  simp only [computerStep, h6]
  rw [if_pos ⟨h4, h5⟩, if_pos hw]

lemma computerStep_draw (rand : Nat → Nat) (t : GameState) (mv : Int)
    (h4 : t.isPlayerTurn = false) (h5 : t.gameStatus = GameStatus.playing)
    (h6 : getComputerMove rand t.board = some mv)
    (hw : checkWinner (t.board.set mv.toNat (some Mark.O)) = none)
    (hd : checkDraw (t.board.set mv.toNat (some Mark.O)) = true) :
    computerStep rand t =
      { t with board := t.board.set mv.toNat (some Mark.O),
               gameStatus := GameStatus.draw,
               score := { t.score with draws := t.score.draws + 1 } } := by
  simp only [computerStep, h6]
  rw [if_pos ⟨h4, h5⟩, if_neg (not_not_intro hw), if_pos hd]

lemma computerStep_continue (rand : Nat → Nat) (t : GameState) (mv : Int)
    (h4 : t.isPlayerTurn = false) (h5 : t.gameStatus = GameStatus.playing)
    (h6 : getComputerMove rand t.board = some mv)
    (hw : checkWinner (t.board.set mv.toNat (some Mark.O)) = none)
    (hd : checkDraw (t.board.set mv.toNat (some Mark.O)) = false) :
    computerStep rand t =
      { t with board := t.board.set mv.toNat (some Mark.O),
               isPlayerTurn := true } := by
  simp only [computerStep, h6]
  rw [if_pos ⟨h4, h5⟩, if_neg (not_not_intro hw), if_neg (by simp [hd])]

/-- C4: in both move paths the outcome is evaluated win-first, draw-second:
the status after an accepted move is `won` exactly when `checkWinner`
reports a mark on the new board, `draw` exactly when it reports none and
the new board is full, and `playing` exactly when it reports none and the
board is not full — so a ninth-cell move that completes a line is `won`,
never `draw`, and the three outcomes are mutually exclusive. -/
theorem outcome_priority (s t : GameState) (index : Nat) (rand : Nat → Nat)
    (mv : Int)
    (h1 : s.board.getD index none = none)
    (h2 : s.gameStatus = GameStatus.playing) (h3 : s.isPlayerTurn = true)
    (h4 : t.isPlayerTurn = false) (h5 : t.gameStatus = GameStatus.playing)
    (h6 : getComputerMove rand t.board = some mv) :
    ((handleCellClick s index).gameStatus = GameStatus.won ↔
      checkWinner (s.board.set index (some Mark.X)) ≠ none)
    ∧ ((handleCellClick s index).gameStatus = GameStatus.draw ↔
      checkWinner (s.board.set index (some Mark.X)) = none ∧
        checkDraw (s.board.set index (some Mark.X)) = true)
    ∧ ((handleCellClick s index).gameStatus = GameStatus.playing ↔
      checkWinner (s.board.set index (some Mark.X)) = none ∧
        checkDraw (s.board.set index (some Mark.X)) = false)
    ∧ ((computerStep rand t).gameStatus = GameStatus.won ↔
      checkWinner (t.board.set mv.toNat (some Mark.O)) ≠ none)
    ∧ ((computerStep rand t).gameStatus = GameStatus.draw ↔
      checkWinner (t.board.set mv.toNat (some Mark.O)) = none ∧
        checkDraw (t.board.set mv.toNat (some Mark.O)) = true)
    ∧ ((computerStep rand t).gameStatus = GameStatus.playing ↔
      checkWinner (t.board.set mv.toNat (some Mark.O)) = none ∧
        checkDraw (t.board.set mv.toNat (some Mark.O)) = false) := by
  refine ⟨?_, ?_, ?_, ?_, ?_, ?_⟩
  · by_cases hw : checkWinner (s.board.set index (some Mark.X)) = none
    · cases hd : checkDraw (s.board.set index (some Mark.X)) with
      | false =>
        rw [handleCellClick_continue s index h1 h2 h3 hw hd]
        simp [h2, hw]
      | true =>
        rw [handleCellClick_draw s index h1 h2 h3 hw hd]
        simp [hw]
    · rw [handleCellClick_won s index h1 h2 h3 hw]
      simp [hw]
  · by_cases hw : checkWinner (s.board.set index (some Mark.X)) = none
    · cases hd : checkDraw (s.board.set index (some Mark.X)) with
      | false =>
        rw [handleCellClick_continue s index h1 h2 h3 hw hd]
        simp [h2, hw, hd]
      | true =>
        rw [handleCellClick_draw s index h1 h2 h3 hw hd]
        simp [hw, hd]
    · rw [handleCellClick_won s index h1 h2 h3 hw]
      simp [hw]
  · by_cases hw : checkWinner (s.board.set index (some Mark.X)) = none
    · cases hd : checkDraw (s.board.set index (some Mark.X)) with
      | false =>
        rw [handleCellClick_continue s index h1 h2 h3 hw hd]
        simp [h2, hw, hd]
      | true =>
        rw [handleCellClick_draw s index h1 h2 h3 hw hd]
        simp [hw, hd]
    · rw [handleCellClick_won s index h1 h2 h3 hw]
      simp [hw]
  · by_cases hw : checkWinner (t.board.set mv.toNat (some Mark.O)) = none
    · cases hd : checkDraw (t.board.set mv.toNat (some Mark.O)) with
      | false =>
        rw [computerStep_continue rand t mv h4 h5 h6 hw hd]
        simp [h5, hw]
      | true =>
        rw [computerStep_draw rand t mv h4 h5 h6 hw hd]
        simp [hw]
    · rw [computerStep_won rand t mv h4 h5 h6 hw]
      simp [hw]
  · by_cases hw : checkWinner (t.board.set mv.toNat (some Mark.O)) = none
    · cases hd : checkDraw (t.board.set mv.toNat (some Mark.O)) with
      | false =>
        rw [computerStep_continue rand t mv h4 h5 h6 hw hd]
        simp [h5, hw, hd]
      | true =>
        rw [computerStep_draw rand t mv h4 h5 h6 hw hd]
        simp [hw, hd]
    · rw [computerStep_won rand t mv h4 h5 h6 hw]
      simp [hw]
  · by_cases hw : checkWinner (t.board.set mv.toNat (some Mark.O)) = none
    · cases hd : checkDraw (t.board.set mv.toNat (some Mark.O)) with
      | false =>
        rw [computerStep_continue rand t mv h4 h5 h6 hw hd]
        simp [h5, hw, hd]
      | true =>
        rw [computerStep_draw rand t mv h4 h5 h6 hw hd]
        simp [hw, hd]
    · rw [computerStep_won rand t mv h4 h5 h6 hw]
      simp [hw]

/-- Witness for `outcome_priority`: the opening move on the empty board and
the computer's first reply. -/
theorem outcome_priority_witness :
    state0.board.getD 0 none = none ∧ state0.gameStatus = GameStatus.playing ∧
      state0.isPlayerTurn = true ∧ stateC.isPlayerTurn = false ∧
      stateC.gameStatus = GameStatus.playing ∧
      getComputerMove rand0 stateC.board = some 4 ∧
      ((handleCellClick state0 0).gameStatus = GameStatus.playing ↔
        checkWinner (state0.board.set 0 (some Mark.X)) = none ∧
          checkDraw (state0.board.set 0 (some Mark.X)) = false) :=
  ⟨by decide, by decide, by decide, by decide, by decide, by decide,
    (outcome_priority state0 stateC 0 rand0 4 (by decide) (by decide)
      (by decide) (by decide) (by decide) (by decide)).2.2.1⟩

/-- C6: every accepted move is move-then-evaluate: the mover's mark is
written into the chosen cell, and the turn indicator ends up flipped to
the other side exactly when the resulting status is still `playing` (a
game-ending move leaves the indicator unchanged). -/
theorem move_then_evaluate (s t : GameState) (index : Nat) (rand : Nat → Nat)
    (mv : Int)
    (h1 : s.board.getD index none = none)
    (h2 : s.gameStatus = GameStatus.playing) (h3 : s.isPlayerTurn = true)
    (h4 : t.isPlayerTurn = false) (h5 : t.gameStatus = GameStatus.playing)
    (h6 : getComputerMove rand t.board = some mv) :
    ((handleCellClick s index).board = s.board.set index (some Mark.X))
    ∧ ((handleCellClick s index).isPlayerTurn = false ↔
        (handleCellClick s index).gameStatus = GameStatus.playing)
    ∧ ((computerStep rand t).board = t.board.set mv.toNat (some Mark.O))
    ∧ ((computerStep rand t).isPlayerTurn = true ↔
        (computerStep rand t).gameStatus = GameStatus.playing) := by
  refine ⟨?_, ?_, ?_, ?_⟩
  · by_cases hw : checkWinner (s.board.set index (some Mark.X)) = none
    · cases hd : checkDraw (s.board.set index (some Mark.X)) with
      | false => rw [handleCellClick_continue s index h1 h2 h3 hw hd]
      | true => rw [handleCellClick_draw s index h1 h2 h3 hw hd]
    · rw [handleCellClick_won s index h1 h2 h3 hw]
  · by_cases hw : checkWinner (s.board.set index (some Mark.X)) = none
    · cases hd : checkDraw (s.board.set index (some Mark.X)) with
      | false =>
        rw [handleCellClick_continue s index h1 h2 h3 hw hd]
        simp [h2]
      | true =>
        rw [handleCellClick_draw s index h1 h2 h3 hw hd]
        simp [h3]
    · rw [handleCellClick_won s index h1 h2 h3 hw]
      simp [h3]
  · by_cases hw : checkWinner (t.board.set mv.toNat (some Mark.O)) = none
    · cases hd : checkDraw (t.board.set mv.toNat (some Mark.O)) with
      | false => rw [computerStep_continue rand t mv h4 h5 h6 hw hd]
      | true => rw [computerStep_draw rand t mv h4 h5 h6 hw hd]
    · rw [computerStep_won rand t mv h4 h5 h6 hw]
  · by_cases hw : checkWinner (t.board.set mv.toNat (some Mark.O)) = none
    · cases hd : checkDraw (t.board.set mv.toNat (some Mark.O)) with
      | false =>
        rw [computerStep_continue rand t mv h4 h5 h6 hw hd]
        simp [h5]
      | true =>
        rw [computerStep_draw rand t mv h4 h5 h6 hw hd]
        simp [h4]
    · rw [computerStep_won rand t mv h4 h5 h6 hw]
      simp [h4]

/-- Witness for `move_then_evaluate` at the opening move. -/
theorem move_then_evaluate_witness :
    state0.board.getD 0 none = none ∧ state0.gameStatus = GameStatus.playing ∧
      state0.isPlayerTurn = true ∧ stateC.isPlayerTurn = false ∧
      stateC.gameStatus = GameStatus.playing ∧
      getComputerMove rand0 stateC.board = some 4 ∧
      (handleCellClick state0 0).board = state0.board.set 0 (some Mark.X) :=
  ⟨by decide, by decide, by decide, by decide, by decide, by decide,
    (move_then_evaluate state0 stateC 0 rand0 4 (by decide) (by decide)
      (by decide) (by decide) (by decide) (by decide)).1⟩

/-- C5: an invalid click (occupied cell, game over, or not the player's
turn) leaves the whole state unchanged; when the game is not `playing`,
neither move path changes the state and `resetScore` keeps the status; and
`resetGame` is the only transition out of a terminal state — it restores
the empty board, `playing` and the player's turn while keeping the
score. -/
theorem invalid_move_frame (s : GameState) (index : Nat) (rand : Nat → Nat) :
    ((s.board.getD index none ≠ none ∨ s.gameStatus ≠ GameStatus.playing ∨
        s.isPlayerTurn = false) → handleCellClick s index = s)
    ∧ (s.gameStatus ≠ GameStatus.playing →
        handleCellClick s index = s ∧ computerStep rand s = s ∧
          (resetScore s).gameStatus = s.gameStatus)
    ∧ ((resetGame s).board = List.replicate 9 none ∧
        (resetGame s).gameStatus = GameStatus.playing ∧
        (resetGame s).isPlayerTurn = true ∧ (resetGame s).winner = none ∧
        (resetGame s).score = s.score) := by
  refine ⟨?_, ?_, ?_⟩
  · intro h
    unfold handleCellClick
    rw [if_pos h]
  · intro h
    refine ⟨?_, ?_, rfl⟩
    · unfold handleCellClick
      rw [if_pos (Or.inr (Or.inl h))]
    · unfold computerStep
      exact if_neg fun hc => h hc.2
  · exact ⟨rfl, rfl, rfl, rfl, rfl⟩

/-- Witness for `invalid_move_frame` at a won state: clicks and the
computer effect are inert there. -/
theorem invalid_move_frame_witness :
    stateWon.gameStatus ≠ GameStatus.playing ∧
      handleCellClick stateWon 5 = stateWon ∧
      computerStep rand0 stateWon = stateWon :=
  ⟨by decide, ((invalid_move_frame stateWon 5 rand0).2.1 (by decide)).1,
    ((invalid_move_frame stateWon 5 rand0).2.1 (by decide)).2.1⟩

/-- C8: a terminal transition bumps exactly one tally — the player's on a
player win (with winner `"Player"`), the computer's on a computer win
(with winner `"Computer"`), the draw tally on a draw — and a move that
keeps playing leaves the score alone; `resetGame` keeps the score while
restoring board, turn, status and winner; `resetScore` zeroes the three
tallies and changes nothing else. -/
theorem score_frame (s t : GameState) (index : Nat) (rand : Nat → Nat)
    (mv : Int)
    (h1 : s.board.getD index none = none)
    (h2 : s.gameStatus = GameStatus.playing) (h3 : s.isPlayerTurn = true)
    (h4 : t.isPlayerTurn = false) (h5 : t.gameStatus = GameStatus.playing)
    (h6 : getComputerMove rand t.board = some mv) :
    ((handleCellClick s index).gameStatus = GameStatus.won →
      (handleCellClick s index).score =
        { s.score with player := s.score.player + 1 } ∧
      (handleCellClick s index).winner = some "Player")
    ∧ ((handleCellClick s index).gameStatus = GameStatus.draw →
      (handleCellClick s index).score =
        { s.score with draws := s.score.draws + 1 })
    ∧ ((handleCellClick s index).gameStatus = GameStatus.playing →
      (handleCellClick s index).score = s.score)
    ∧ ((computerStep rand t).gameStatus = GameStatus.won →
      (computerStep rand t).score =
        { t.score with computer := t.score.computer + 1 } ∧
      (computerStep rand t).winner = some "Computer")
    ∧ ((computerStep rand t).gameStatus = GameStatus.draw →
      (computerStep rand t).score =
        { t.score with draws := t.score.draws + 1 })
    ∧ ((computerStep rand t).gameStatus = GameStatus.playing →
      (computerStep rand t).score = t.score)
    ∧ ((resetGame s).score = s.score ∧
        (resetGame s).board = List.replicate 9 none ∧
        (resetGame s).isPlayerTurn = true ∧
        (resetGame s).gameStatus = GameStatus.playing ∧
        (resetGame s).winner = none)
    ∧ (resetScore s =
        { s with score := { player := 0, computer := 0, draws := 0 } }) := by
  refine ⟨?_, ?_, ?_, ?_, ?_, ?_, ⟨rfl, rfl, rfl, rfl, rfl⟩, rfl⟩
  · by_cases hw : checkWinner (s.board.set index (some Mark.X)) = none
    · cases hd : checkDraw (s.board.set index (some Mark.X)) with
      | false =>
        rw [handleCellClick_continue s index h1 h2 h3 hw hd]
        simp [h2]
      | true =>
        rw [handleCellClick_draw s index h1 h2 h3 hw hd]
        simp
    · rw [handleCellClick_won s index h1 h2 h3 hw]
      intro _
      exact ⟨rfl, rfl⟩
  · by_cases hw : checkWinner (s.board.set index (some Mark.X)) = none
    · cases hd : checkDraw (s.board.set index (some Mark.X)) with
      | false =>
        rw [handleCellClick_continue s index h1 h2 h3 hw hd]
        simp [h2]
      | true =>
        rw [handleCellClick_draw s index h1 h2 h3 hw hd]
        intro _
        rfl
    · rw [handleCellClick_won s index h1 h2 h3 hw]
      simp
  · by_cases hw : checkWinner (s.board.set index (some Mark.X)) = none
    · cases hd : checkDraw (s.board.set index (some Mark.X)) with
      | false =>
        rw [handleCellClick_continue s index h1 h2 h3 hw hd]
        intro _
        rfl
      | true =>
        rw [handleCellClick_draw s index h1 h2 h3 hw hd]
        simp
    · rw [handleCellClick_won s index h1 h2 h3 hw]
      simp
  · by_cases hw : checkWinner (t.board.set mv.toNat (some Mark.O)) = none
    · cases hd : checkDraw (t.board.set mv.toNat (some Mark.O)) with
      | false =>
        rw [computerStep_continue rand t mv h4 h5 h6 hw hd]
        simp [h5]
      | true =>
        rw [computerStep_draw rand t mv h4 h5 h6 hw hd]
        simp
    · rw [computerStep_won rand t mv h4 h5 h6 hw]
      intro _
      exact ⟨rfl, rfl⟩
  · by_cases hw : checkWinner (t.board.set mv.toNat (some Mark.O)) = none
    · cases hd : checkDraw (t.board.set mv.toNat (some Mark.O)) with
      | false =>
        rw [computerStep_continue rand t mv h4 h5 h6 hw hd]
        simp [h5]
      | true =>
        rw [computerStep_draw rand t mv h4 h5 h6 hw hd]
        intro _
        rfl
    · rw [computerStep_won rand t mv h4 h5 h6 hw]
      simp
  · by_cases hw : checkWinner (t.board.set mv.toNat (some Mark.O)) = none
    · cases hd : checkDraw (t.board.set mv.toNat (some Mark.O)) with
      | false =>
        rw [computerStep_continue rand t mv h4 h5 h6 hw hd]
        intro _
        rfl
      | true =>
        rw [computerStep_draw rand t mv h4 h5 h6 hw hd]
        simp
    · rw [computerStep_won rand t mv h4 h5 h6 hw]
      simp

/-- Witness for `score_frame`: the opening move keeps the game in progress
and the score untouched. -/
theorem score_frame_witness :
    state0.board.getD 0 none = none ∧ state0.gameStatus = GameStatus.playing ∧
      state0.isPlayerTurn = true ∧ stateC.isPlayerTurn = false ∧
      stateC.gameStatus = GameStatus.playing ∧
      getComputerMove rand0 stateC.board = some 4 ∧
      resetScore state0 =
        { state0 with score := { player := 0, computer := 0, draws := 0 } } :=
  ⟨by decide, by decide, by decide, by decide, by decide, by decide,
    (score_frame state0 stateC 0 rand0 4 (by decide) (by decide) (by decide)
      (by decide) (by decide) (by decide)).2.2.2.2.2.2.2⟩

/-- C9: `checkWinner`, `checkDraw` and `getAvailableMoves` are pure
functions of the board value: equal boards give equal results, so repeated
calls return identical results and no call changes the board. -/
theorem engine_pure (b b2 : Board) (h : b = b2) :
    checkWinner b = checkWinner b2 ∧ checkDraw b = checkDraw b2 ∧
      getAvailableMoves b = getAvailableMoves b2 := by
  subst h
  exact ⟨rfl, rfl, rfl⟩

/-- Witness for `engine_pure` at the empty board. -/
theorem engine_pure_witness :
    emptyBoard = emptyBoard ∧
      (checkWinner emptyBoard = checkWinner emptyBoard ∧
        checkDraw emptyBoard = checkDraw emptyBoard ∧
        getAvailableMoves emptyBoard = getAvailableMoves emptyBoard) :=
  ⟨rfl, engine_pure emptyBoard emptyBoard rfl⟩

end TicTacToe
